import Mathlib

/-!
Verification of the core of the nba-gemini-project pipeline.

The embedded code:

* the Metrics Engine: `safe_float` and `compute_metrics` from
  `build_db.py` (the identical copy lives in `build2_db.py`), together
  with the batch-level schema validation at the top of `main()` in
  `build_db.py`;
* the Season-Coverage Analyzer: the per-player missing-season block of
  `detect_anomalies` in `main.py` (lines 50-63; `test.py` holds the same
  code).

Modelling conventions: Python numbers are embedded as exact rationals
(the decimal literals 0.5, 0.44 and 36.0 of the source become 1/2, 11/25
and 36); Python strings are Lean strings compared by code point; a
Python dict is an association list in which the first binding for a key
wins; `None` results and raised exceptions of a fallible computation are
`Option.none`; errors raised by the batch validation are an explicit
`Except` error value.
-/

namespace Nba

/-- A raw JSON/dict field value as consumed by `safe_float`: null (also
used for an absent key, since `r.get(k)` yields `None` then), a number, a
string that parses as a number, a string that does not, or any other
object (list, dict, bool-free catch-all) on which `float()` raises
`TypeError`. -/
inductive PyVal where
  | vnull : PyVal
  | vnum : ℚ → PyVal
  | vstrNum : ℚ → PyVal
  | vstrBad : PyVal
  | vother : PyVal
deriving DecidableEq

/-- `safe_float` (build_db.py lines 11-16): `float(x)` with `TypeError`
and `ValueError` absorbed into `None`. -/
def safe_float : PyVal → Option ℚ
  | .vnum q => some q
  | .vstrNum q => some q
  | _ => none

/-- A player-season record: a finite string-keyed mapping, embedded as an
association list (first binding wins, as in a Python dict). -/
def PRec := List (String × PyVal)

/-- `r.get(k)`: the value bound to `k`, `None` when `k` is absent. -/
def rget (r : PRec) (k : String) : PyVal :=
  match r.find? (fun p => p.1 = k) with
  | some p => p.2
  | none => .vnull

/-- `k in r.keys()`. -/
def hasKey (r : PRec) (k : String) : Bool :=
  (r.find? (fun p => p.1 = k)).isSome

/-- The five derived metrics returned by `compute_metrics`; each is a
rational or absent (`None`/SQL NULL). -/
structure Metrics where
  ts : Option ℚ
  efg : Option ℚ
  pts36 : Option ℚ
  reb36 : Option ℚ
  ast36 : Option ℚ
deriving DecidableEq

/-- `compute_metrics` (build_db.py lines 19-59): eFG%, TS% and the three
per-36 rates, with the exact guard structure of the source (`x is not
None` tests and strict positivity checks before each division). -/
def compute_metrics (r : PRec) : Metrics :=
  let min_ := safe_float (rget r "MIN")
  let pts := safe_float (rget r "PTS")
  let reb := safe_float (rget r "REB")
  let ast := safe_float (rget r "AST")
  let fgm := safe_float (rget r "FGM")
  let fga := safe_float (rget r "FGA")
  let fg3m := safe_float (rget r "FG3M")
  let fta := safe_float (rget r "FTA")
  let efg : Option ℚ :=
    match fga, fgm, fg3m with
    | some a, some m, some m3 => if 0 < a then some ((m + 1/2 * m3) / a) else none
    | _, _, _ => none
  let ts : Option ℚ :=
    match pts, fga, fta with
    | some p, some a, some t =>
      if 0 < 2 * (a + 11/25 * t) then some (p / (2 * (a + 11/25 * t))) else none
    | _, _, _ => none
  let per36 : Option ℚ × Option ℚ × Option ℚ :=
    match min_ with
    | some m =>
      if 0 < m then
        (pts.map (fun p => p * (36 / m)),
         reb.map (fun x => x * (36 / m)),
         ast.map (fun x => x * (36 / m)))
      else (none, none, none)
    | none => (none, none, none)
  ⟨ts, efg, per36.1, per36.2.1, per36.2.2⟩

end Nba

namespace Nba

lemma efg_eq (r : PRec) :
    (compute_metrics r).efg =
      match safe_float (rget r "FGA"), safe_float (rget r "FGM"),
          safe_float (rget r "FG3M") with
      | some a, some m, some m3 =>
        if 0 < a then some ((m + 1/2 * m3) / a) else none
      | _, _, _ => none := rfl

lemma ts_eq (r : PRec) :
    (compute_metrics r).ts =
      match safe_float (rget r "PTS"), safe_float (rget r "FGA"),
          safe_float (rget r "FTA") with
      | some p, some a, some t =>
        if 0 < 2 * (a + 11/25 * t) then some (p / (2 * (a + 11/25 * t))) else none
      | _, _, _ => none := rfl

lemma pts36_eq (r : PRec) :
    (compute_metrics r).pts36 =
      match safe_float (rget r "MIN") with
      | some m =>
        if 0 < m then (safe_float (rget r "PTS")).map (fun p => p * (36 / m))
        else none
      | none => none := by
  unfold compute_metrics
  rcases safe_float (rget r "MIN") with _ | m <;> [simp; skip]
  by_cases h : 0 < m <;> simp [h]

lemma reb36_eq (r : PRec) :
    (compute_metrics r).reb36 =
      match safe_float (rget r "MIN") with
      | some m =>
        if 0 < m then (safe_float (rget r "REB")).map (fun x => x * (36 / m))
        else none
      | none => none := by
  unfold compute_metrics
  rcases safe_float (rget r "MIN") with _ | m <;> [simp; skip]
  by_cases h : 0 < m <;> simp [h]

lemma ast36_eq (r : PRec) :
    (compute_metrics r).ast36 =
      match safe_float (rget r "MIN") with
      | some m =>
        if 0 < m then (safe_float (rget r "AST")).map (fun x => x * (36 / m))
        else none
      | none => none := by
  unfold compute_metrics
  rcases safe_float (rget r "MIN") with _ | m <;> [simp; skip]
  by_cases h : 0 < m <;> simp [h]

end Nba

namespace Nba

/-- Python string comparison (`<` on `str`): code-point lexicographic
order on the character lists. -/
def pyStrLt : List Char → List Char → Bool
  | [], [] => false
  | [], _ :: _ => true
  | _ :: _, [] => false
  | a :: as, b :: bs =>
    if a.toNat < b.toNat then true
    else if b.toNat < a.toNat then false
    else pyStrLt as bs

/-- `a < b` on Python strings. -/
def sLt (a b : String) : Bool := pyStrLt a.data b.data

/-- `min(seasons)`: Python `min` over an iterable of strings (keeps the
current minimum, replacing it when a later item compares strictly
smaller); `None` on an empty iterable, where Python raises `ValueError`. -/
def strMinList : List String → Option String
  | [] => none
  | x :: xs => some (xs.foldl (fun m s => if sLt s m then s else m) x)

/-- `max(seasons)`: Python `max` over an iterable of strings. -/
def strMaxList : List String → Option String
  | [] => none
  | x :: xs => some (xs.foldl (fun m s => if sLt m s then s else m) x)

/-- The numeric value of a decimal digit character. -/
def digitVal (c : Char) : Nat := c.toNat - 48

/-- The number denoted by a list of decimal digit characters (most
significant first). -/
def digitsToNat (cs : List Char) : Nat :=
  cs.foldl (fun n c => 10 * n + digitVal c) 0

/-- `s.split("-")[0]`: the characters of `s` before its first hyphen. -/
def dashHead (s : String) : List Char :=
  s.data.takeWhile (fun c => c ≠ '-')

/-- Python `int()` applied to a string: succeeds on a non-empty string of
decimal digits, raises `ValueError` (here: `none`) otherwise.  (The
sign/whitespace/underscore forms accepted by `int()` never reach this
call site: the analyzer only ever passes the text before the first
hyphen of a season label.) -/
def pyIntOfChars (cs : List Char) : Option ℤ :=
  if cs ≠ [] ∧ cs.all Char.isDigit then some (digitsToNat cs) else none

/-- `int(s.split("-")[0])`: the start year parsed from a season label. -/
def startYear (s : String) : Option ℤ := pyIntOfChars (dashHead s)

/-- The decimal digit character for `d < 10`. -/
def digitChar (d : Nat) : Char := Char.ofNat (48 + d)

/-- Fuel-driven decimal rendering of a positive natural (most significant
digit first); `[]` when the value is `0`. -/
def digitsAux : Nat → Nat → List Char
  | _, 0 => []
  | 0, _ + 1 => []
  | f + 1, n + 1 => digitsAux f ((n + 1) / 10) ++ [digitChar ((n + 1) % 10)]

/-- Python `str(n)` for a natural number. -/
def pyStrOfNat (n : Nat) : List Char :=
  if n = 0 then ['0'] else digitsAux n n

/-- Python `str(z)` for an integer. -/
def pyStrOfInt (z : ℤ) : List Char :=
  if z < 0 then '-' :: pyStrOfNat z.natAbs else pyStrOfNat z.toNat

/-- Python `s[-2:]`: the last two characters (the whole string when it is
shorter than two characters). -/
def lastTwo (cs : List Char) : List Char := cs.drop (cs.length - 2)

/-- The f-string `"{year-1}-{str(year)[-2:]}"` rendering a missing year
back to a season label (main.py line 60). -/
def renderYear (y : ℤ) : String :=
  String.mk (pyStrOfInt (y - 1) ++ '-' :: lastTwo (pyStrOfInt y))

/-- Python `range(a, b)` over integers, as a list. -/
def intRange (a b : ℤ) : List ℤ :=
  (List.range (b - a).toNat).map (fun n : Nat => a + (n : ℤ))

/-- Insertion into a sorted list of Python strings (stable, ascending). -/
def insertAsc (x : String) : List String → List String
  | [] => [x]
  | y :: ys => if sLt y x then y :: insertAsc x ys else x :: y :: ys

/-- Python `sorted()` on a list of strings. -/
def sortedStrs (l : List String) : List String := l.foldr insertAsc []

/-- The per-player body of `detect_anomalies` (main.py lines 50-63):
take the player's observed season labels, parse the lexicographic min
and max label, shift both start years by `+1`, list every year of the
inclusive shifted range that is not an observed start year `+1`, and
render each such year back to a label, sorted.  Any `ValueError` raised
by `int()` on a label (including inside the set comprehension, which
parses every observed label) aborts the computation: `none`. -/
def detectMissing (seasons : List String) : Option (List String) := do
  let mn ← strMinList seasons
  let mx ← strMaxList seasons
  let startY ← startYear mn
  let endY ← startYear mx
  let start := startY + 1
  let stop := endY + 1
  let obs ← seasons.mapM startYear
  let obsShift := obs.map (fun y => y + 1)
  let missing := (intRange start (stop + 1)).filter (fun y => !(decide (y ∈ obsShift)))
  return sortedStrs (missing.map renderYear)

/-- Minimum of a list of integers (`none` when empty). -/
def intMinList : List ℤ → Option ℤ
  | [] => none
  | x :: xs => some (xs.foldl min x)

/-- Maximum of a list of integers (`none` when empty). -/
def intMaxList : List ℤ → Option ℤ
  | [] => none
  | x :: xs => some (xs.foldl max x)

/-- Season coverage as worded by the spec (section 4.2): parse every
observed label's start year, let `lo`/`hi` be the numeric minimum and
maximum observed start year, take the eligible range `[lo+1, hi+1]`,
subtract the observed start years shifted by one, and render each
remaining year `y` as `"{y-1}-{str(y)[-2:]}"`, sorted. -/
def specMissing (seasons : List String) : Option (List String) := do
  let ys ← seasons.mapM startYear
  let lo ← intMinList ys
  let hi ← intMaxList ys
  let missing :=
    (intRange (lo + 1) (hi + 1 + 1)).filter
      (fun y => !(decide (y ∈ ys.map (fun z => z + 1))))
  return sortedStrs (missing.map renderYear)

/-- A well-formed season label per the data-model invariant (spec
section 3): four decimal digits followed by a hyphen. -/
def labelWF (s : String) : Bool :=
  match s.data with
  | d1 :: d2 :: d3 :: d4 :: h :: _ =>
    d1.isDigit && d2.isDigit && d3.isDigit && d4.isDigit && (h == '-')
  | _ => false

/-- A label starting with a (4-digit) parseable year, as worded by the
spec's failure mode (section 4.2). -/
def startsWith4Digits (s : String) : Bool :=
  match s.data with
  | d1 :: d2 :: d3 :: d4 :: _ =>
    d1.isDigit && d2.isDigit && d3.isDigit && d4.isDigit
  | _ => false

end Nba

namespace Nba

/-- The f-string rendering a start year `y` directly to its season label
`"{y}-{str(y+1)[-2:]}"` (no unshift), as used by the season list builder
in `fetch_nba_player_stats` (main.py line 10). -/
def renderStartYear (y : ℤ) : String :=
  String.mk (pyStrOfInt y ++ '-' :: lastTwo (pyStrOfInt (y + 1)))

/-- The shift-free variant of the analyzer considered by the spec
(section 4.2 rationale): eligible range `[lo, hi]` directly over the
observed start years, subtract the observed start years, and render each
remaining start year `y` as its own label. -/
def detectMissingUnshifted (seasons : List String) : Option (List String) := do
  let mn ← strMinList seasons
  let mx ← strMaxList seasons
  let lo ← startYear mn
  let hi ← startYear mx
  let obs ← seasons.mapM startYear
  let missing := (intRange lo (hi + 1)).filter (fun y => !(decide (y ∈ obs)))
  return sortedStrs (missing.map renderStartYear)

/-- The 27 keys demanded of the first record of the batch (build_db.py
lines 72-77). -/
def requiredKeys : List String :=
  ["PLAYER_ID", "PLAYER_NAME", "TEAM_ID", "TEAM_ABBREVIATION", "SEASON",
   "AGE", "GP", "MIN", "W", "L", "W_PCT",
   "FGM", "FGA", "FG3M", "FG3A", "FTM", "FTA",
   "OREB", "DREB", "REB", "AST", "TOV", "STL", "BLK", "PF", "PTS",
   "PLUS_MINUS"]

/-- The batch-level errors `main` raises before any row is processed
(build_db.py lines 68-80): `ValueError` on an empty batch, `KeyError`
naming the sorted missing keys when the first record lacks required
keys. -/
inductive BatchError where
  | emptyInput : BatchError
  | missingKeys : List String → BatchError
deriving DecidableEq

/-- The batch validation of `main` (build_db.py lines 68-80): an empty
row list is rejected, then `required_keys - set(rows[0].keys())` is
computed and a non-empty difference is rejected (the raised `KeyError`
carries the sorted missing keys). -/
def mainValidate (rows : List PRec) : Except BatchError Unit :=
  match rows with
  | [] => Except.error BatchError.emptyInput
  | r :: _ =>
    let ks := sortedStrs (requiredKeys.filter (fun k => !(hasKey r k)))
    if ks = [] then Except.ok () else Except.error (BatchError.missingKeys ks)

end Nba

namespace Nba

/-- C2: for every input record, effective field-goal % equals
`(FGM + 0.5 * FG3M) / FGA` when FGA is present and strictly positive and
both FGM and FG3M are present, and is absent otherwise; in particular it
is absent for every record whose FGA field is the number 0, regardless of
all other fields. -/
theorem c2_efg_characterization (r : PRec) :
    ((compute_metrics r).efg = none ↔
      ¬ ∃ a m m3, safe_float (rget r "FGA") = some a ∧ 0 < a ∧
        safe_float (rget r "FGM") = some m ∧
        safe_float (rget r "FG3M") = some m3) ∧
    (∀ a m m3, safe_float (rget r "FGA") = some a → 0 < a →
      safe_float (rget r "FGM") = some m →
      safe_float (rget r "FG3M") = some m3 →
      (compute_metrics r).efg = some ((m + 1/2 * m3) / a)) ∧
    (rget r "FGA" = PyVal.vnum 0 → (compute_metrics r).efg = none) := by
  refine ⟨?_, ?_, ?_⟩
  · rw [efg_eq]
    rcases ha : safe_float (rget r "FGA") with _ | a <;>
      rcases hm : safe_float (rget r "FGM") with _ | m <;>
      rcases h3 : safe_float (rget r "FG3M") with _ | m3 <;>
      simp only [ha, hm, h3, Option.some.injEq, reduceCtorEq, false_and,
        and_false, exists_false, not_false_eq_true, iff_true]
    by_cases hpos : 0 < a <;> simp [hpos]
  · intro a m m3 ha hpos hm h3
    rw [efg_eq, ha, hm, h3]
    simp [hpos]
  · intro hz
    rw [efg_eq, hz]
    rcases hm : safe_float (rget r "FGM") with _ | m <;>
      rcases h3 : safe_float (rget r "FG3M") with _ | m3 <;>
      simp [safe_float]

end Nba

namespace Nba

/-- C3: for every input record, true-shooting % equals
`PTS / (2 * (FGA + 0.44 * FTA))` when PTS, FGA and FTA are all present
and the denominator is strictly positive, and is absent otherwise; in
particular it is absent whenever `FGA + 0.44 * FTA <= 0`. -/
theorem c3_ts_characterization (r : PRec) :
    ((compute_metrics r).ts = none ↔
      ¬ ∃ p a t, safe_float (rget r "PTS") = some p ∧
        safe_float (rget r "FGA") = some a ∧
        safe_float (rget r "FTA") = some t ∧
        0 < 2 * (a + 11/25 * t)) ∧
    (∀ p a t, safe_float (rget r "PTS") = some p →
      safe_float (rget r "FGA") = some a →
      safe_float (rget r "FTA") = some t →
      0 < 2 * (a + 11/25 * t) →
      (compute_metrics r).ts = some (p / (2 * (a + 11/25 * t)))) ∧
    (∀ a t, safe_float (rget r "FGA") = some a →
      safe_float (rget r "FTA") = some t →
      a + 11/25 * t ≤ 0 → (compute_metrics r).ts = none) := by
  refine ⟨?_, ?_, ?_⟩
  · rw [ts_eq]
    rcases hp : safe_float (rget r "PTS") with _ | p <;>
      rcases ha : safe_float (rget r "FGA") with _ | a <;>
      rcases ht : safe_float (rget r "FTA") with _ | t <;>
      simp only [hp, ha, ht, Option.some.injEq, reduceCtorEq, false_and,
        and_false, exists_false, not_false_eq_true, iff_true]
    by_cases hpos : 0 < 2 * (a + 11/25 * t) <;> simp [hpos] <;> linarith
  · intro p a t hp ha ht hpos
    rw [ts_eq, hp, ha, ht]
    simp [hpos]
  · intro a t ha ht hle
    have hneg : ¬ (0 < 2 * (a + 11/25 * t)) := by linarith
    rw [ts_eq, ha, ht]
    rcases hp : safe_float (rget r "PTS") with _ | p <;> simp [hneg]

/-- C4: for every record and each of the three base stats, the per-36
metric equals `stat * 36 / MIN` exactly when MIN is present and strictly
positive and the stat is present, and is absent otherwise; when MIN is 0
or absent all three per-36 metrics are absent while eFG% and TS% are
still computed from their own inputs. -/
theorem c4_per36_characterization (r : PRec) :
    ((compute_metrics r).pts36 = none ↔
      ¬ ∃ m p, safe_float (rget r "MIN") = some m ∧ 0 < m ∧
        safe_float (rget r "PTS") = some p) ∧
    ((compute_metrics r).reb36 = none ↔
      ¬ ∃ m x, safe_float (rget r "MIN") = some m ∧ 0 < m ∧
        safe_float (rget r "REB") = some x) ∧
    ((compute_metrics r).ast36 = none ↔
      ¬ ∃ m x, safe_float (rget r "MIN") = some m ∧ 0 < m ∧
        safe_float (rget r "AST") = some x) ∧
    (∀ m, safe_float (rget r "MIN") = some m → 0 < m →
      (∀ p, safe_float (rget r "PTS") = some p →
        (compute_metrics r).pts36 = some (p * 36 / m)) ∧
      (∀ x, safe_float (rget r "REB") = some x →
        (compute_metrics r).reb36 = some (x * 36 / m)) ∧
      (∀ x, safe_float (rget r "AST") = some x →
        (compute_metrics r).ast36 = some (x * 36 / m))) ∧
    ((safe_float (rget r "MIN") = none ∨ safe_float (rget r "MIN") = some 0) →
      (compute_metrics r).pts36 = none ∧ (compute_metrics r).reb36 = none ∧
        (compute_metrics r).ast36 = none) ∧
    (∀ a m m3,
      safe_float (rget r "MIN") = none ∨ safe_float (rget r "MIN") = some 0 →
      safe_float (rget r "FGA") = some a → 0 < a →
      safe_float (rget r "FGM") = some m →
      safe_float (rget r "FG3M") = some m3 →
      (compute_metrics r).efg = some ((m + 1/2 * m3) / a)) ∧
    (∀ p a t,
      safe_float (rget r "MIN") = none ∨ safe_float (rget r "MIN") = some 0 →
      safe_float (rget r "PTS") = some p →
      safe_float (rget r "FGA") = some a →
      safe_float (rget r "FTA") = some t →
      0 < 2 * (a + 11/25 * t) →
      (compute_metrics r).ts = some (p / (2 * (a + 11/25 * t)))) := by
  refine ⟨?_, ?_, ?_, ?_, ?_, ?_, ?_⟩
  · rw [pts36_eq]
    rcases hm : safe_float (rget r "MIN") with _ | m <;>
      rcases hp : safe_float (rget r "PTS") with _ | p <;>
      simp only [hm, hp, Option.some.injEq, reduceCtorEq, false_and, and_false,
        exists_false, not_false_eq_true, iff_true, Option.map_none,
        Option.map_some]
    · by_cases hpos : 0 < m <;> simp [hpos]
    · by_cases hpos : 0 < m <;> simp [hpos]
  · rw [reb36_eq]
    rcases hm : safe_float (rget r "MIN") with _ | m <;>
      rcases hx : safe_float (rget r "REB") with _ | x <;>
      simp only [hm, hx, Option.some.injEq, reduceCtorEq, false_and, and_false,
        exists_false, not_false_eq_true, iff_true, Option.map_none,
        Option.map_some]
    · by_cases hpos : 0 < m <;> simp [hpos]
    · by_cases hpos : 0 < m <;> simp [hpos]
  · rw [ast36_eq]
    rcases hm : safe_float (rget r "MIN") with _ | m <;>
      rcases hx : safe_float (rget r "AST") with _ | x <;>
      simp only [hm, hx, Option.some.injEq, reduceCtorEq, false_and, and_false,
        exists_false, not_false_eq_true, iff_true, Option.map_none,
        Option.map_some]
    · by_cases hpos : 0 < m <;> simp [hpos]
    · by_cases hpos : 0 < m <;> simp [hpos]
  · intro m hm hpos
    refine ⟨?_, ?_, ?_⟩
    · intro p hp
      rw [pts36_eq, hm, hp]
      simp [hpos, mul_div_assoc]
    · intro x hx
      rw [reb36_eq, hm, hx]
      simp [hpos, mul_div_assoc]
    · intro x hx
      rw [ast36_eq, hm, hx]
      simp [hpos, mul_div_assoc]
  · intro hm
    rcases hm with hm | hm <;>
      rw [pts36_eq, reb36_eq, ast36_eq, hm] <;> simp
  · intro a m m3 _ ha hpos hfgm h3
    rw [efg_eq, ha, hfgm, h3]
    simp [hpos]
  · intro p a t _ hp ha ht hpos
    rw [ts_eq, hp, ha, ht]
    simp [hpos]

end Nba

namespace Nba

/-- C6: the Metrics Engine is total: it is a plain function on records
(no exception channel in its type), every missing/null/non-numeric field
coerces to `none`, and each coercion failure only makes the dependent
metrics absent. -/
theorem c6_coercion_failure_degrades (r : PRec) :
    (safe_float PyVal.vnull = none ∧ safe_float PyVal.vstrBad = none ∧
      safe_float PyVal.vother = none) ∧
    (safe_float (rget r "MIN") = none →
      (compute_metrics r).pts36 = none ∧ (compute_metrics r).reb36 = none ∧
        (compute_metrics r).ast36 = none) ∧
    (safe_float (rget r "PTS") = none →
      (compute_metrics r).ts = none ∧ (compute_metrics r).pts36 = none) ∧
    (safe_float (rget r "FGA") = none →
      (compute_metrics r).efg = none ∧ (compute_metrics r).ts = none) ∧
    (safe_float (rget r "FGM") = none → (compute_metrics r).efg = none) ∧
    (safe_float (rget r "FG3M") = none → (compute_metrics r).efg = none) ∧
    (safe_float (rget r "FTA") = none → (compute_metrics r).ts = none) ∧
    (safe_float (rget r "REB") = none → (compute_metrics r).reb36 = none) ∧
    (safe_float (rget r "AST") = none → (compute_metrics r).ast36 = none) := by
  refine ⟨⟨rfl, rfl, rfl⟩, ?_, ?_, ?_, ?_, ?_, ?_, ?_, ?_⟩
  · intro h
    rw [pts36_eq, reb36_eq, ast36_eq, h]
    exact ⟨rfl, rfl, rfl⟩
  · intro h
    rw [ts_eq, pts36_eq, h]
    rcases hm : safe_float (rget r "MIN") with _ | m <;> simp
  · intro h
    rw [efg_eq, ts_eq, h]
    constructor
    · rcases safe_float (rget r "FGM") with _ | m <;> simp
    · rcases safe_float (rget r "PTS") with _ | p <;> simp
  · intro h
    rw [efg_eq, h]
    rcases safe_float (rget r "FGA") with _ | a <;> simp
  · intro h
    rw [efg_eq, h]
    rcases safe_float (rget r "FGA") with _ | a <;>
      rcases safe_float (rget r "FGM") with _ | m <;> simp
  · intro h
    rw [ts_eq, h]
    rcases safe_float (rget r "PTS") with _ | p <;>
      rcases safe_float (rget r "FGA") with _ | a <;> simp
  · intro h
    rw [reb36_eq, h]
    rcases safe_float (rget r "MIN") with _ | m <;> simp
  · intro h
    rw [ast36_eq, h]
    rcases safe_float (rget r "MIN") with _ | m <;> simp

/-- A record exercising eFG%: FGA 10, FGM 4, FG3M 2, plus an unrelated
non-numeric field. -/
def recEfg : PRec :=
  [("FGA", PyVal.vnum 10), ("FGM", PyVal.vnum 4), ("FG3M", PyVal.vnum 2),
   ("PLAYER_NAME", PyVal.vstrBad)]

/-- A record exercising TS% with FTA 0 so the denominator is `2 * FGA`. -/
def recTs : PRec :=
  [("PTS", PyVal.vnum 20), ("FGA", PyVal.vnum 15), ("FTA", PyVal.vnum 0)]

/-- A record exercising the per-36 rates: 30 minutes, 20 points. -/
def recP36 : PRec := [("MIN", PyVal.vnum 30), ("PTS", PyVal.vnum 20)]

/-- C7: every derived metric is either absent or a genuine ratio with
strictly positive denominator (hence a real number: never NaN or
infinite in the exact-rational semantics), and absence is a distinct
state from a present zero, as witnessed by a zero-minute record versus a
record with a present zero-valued metric. -/
theorem c7_metrics_real_or_absent (r : PRec) :
    (∀ q, (compute_metrics r).ts = some q → ∃ n d, 0 < d ∧ q = n / d) ∧
    (∀ q, (compute_metrics r).efg = some q → ∃ n d, 0 < d ∧ q = n / d) ∧
    (∀ q, (compute_metrics r).pts36 = some q → ∃ n d, 0 < d ∧ q = n / d) ∧
    (∀ q, (compute_metrics r).reb36 = some q → ∃ n d, 0 < d ∧ q = n / d) ∧
    (∀ q, (compute_metrics r).ast36 = some q → ∃ n d, 0 < d ∧ q = n / d) ∧
    (compute_metrics [("MIN", PyVal.vnum 0), ("PTS", PyVal.vnum 0)]).pts36
      = none ∧
    (compute_metrics [("MIN", PyVal.vnum 36), ("PTS", PyVal.vnum 0)]).pts36
      = some 0 ∧
    some (0 : ℚ) ≠ (none : Option ℚ) := by
  refine ⟨?_, ?_, ?_, ?_, ?_, ?_, ?_, by simp⟩
  · intro q hq
    rw [ts_eq] at hq
    rcases hp : safe_float (rget r "PTS") with _ | p <;> rw [hp] at hq <;>
      [exact absurd hq (by simp); skip]
    rcases ha : safe_float (rget r "FGA") with _ | a <;> rw [ha] at hq <;>
      [exact absurd hq (by simp); skip]
    rcases ht : safe_float (rget r "FTA") with _ | t <;> rw [ht] at hq <;>
      [exact absurd hq (by simp); skip]
    simp only [] at hq
    by_cases hpos : 0 < 2 * (a + 11/25 * t)
    · rw [if_pos hpos] at hq
      exact ⟨p, 2 * (a + 11/25 * t), hpos, (Option.some.inj hq).symm⟩
    · rw [if_neg hpos] at hq
      exact absurd hq (by simp)
  · intro q hq
    rw [efg_eq] at hq
    rcases ha : safe_float (rget r "FGA") with _ | a <;> rw [ha] at hq <;>
      [exact absurd hq (by simp); skip]
    rcases hm : safe_float (rget r "FGM") with _ | m <;> rw [hm] at hq <;>
      [exact absurd hq (by simp); skip]
    rcases h3 : safe_float (rget r "FG3M") with _ | m3 <;> rw [h3] at hq <;>
      [exact absurd hq (by simp); skip]
    simp only [] at hq
    by_cases hpos : 0 < a
    · rw [if_pos hpos] at hq
      exact ⟨m + 1/2 * m3, a, hpos, (Option.some.inj hq).symm⟩
    · rw [if_neg hpos] at hq
      exact absurd hq (by simp)
  · intro q hq
    rw [pts36_eq] at hq
    rcases hm : safe_float (rget r "MIN") with _ | m <;> rw [hm] at hq <;>
      [exact absurd hq (by simp); skip]
    simp only [] at hq
    by_cases hpos : 0 < m
    · rw [if_pos hpos] at hq
      rcases hp : safe_float (rget r "PTS") with _ | p <;> rw [hp] at hq <;>
        [exact absurd hq (by simp); skip]
      refine ⟨p * 36, m, hpos, ?_⟩
      rw [← Option.some.inj hq, mul_div_assoc]
    · rw [if_neg hpos] at hq
      exact absurd hq (by simp)
  · intro q hq
    rw [reb36_eq] at hq
    rcases hm : safe_float (rget r "MIN") with _ | m <;> rw [hm] at hq <;>
      [exact absurd hq (by simp); skip]
    simp only [] at hq
    by_cases hpos : 0 < m
    · rw [if_pos hpos] at hq
      rcases hx : safe_float (rget r "REB") with _ | x <;> rw [hx] at hq <;>
        [exact absurd hq (by simp); skip]
      refine ⟨x * 36, m, hpos, ?_⟩
      rw [← Option.some.inj hq, mul_div_assoc]
    · rw [if_neg hpos] at hq
      exact absurd hq (by simp)
  · intro q hq
    rw [ast36_eq] at hq
    rcases hm : safe_float (rget r "MIN") with _ | m <;> rw [hm] at hq <;>
      [exact absurd hq (by simp); skip]
    simp only [] at hq
    by_cases hpos : 0 < m
    · rw [if_pos hpos] at hq
      rcases hx : safe_float (rget r "AST") with _ | x <;> rw [hx] at hq <;>
        [exact absurd hq (by simp); skip]
      refine ⟨x * 36, m, hpos, ?_⟩
      rw [← Option.some.inj hq, mul_div_assoc]
    · rw [if_neg hpos] at hq
      exact absurd hq (by simp)
  · rw [pts36_eq]
    simp [rget, safe_float, List.find?]
  · rw [pts36_eq]
    have h36 : (0:ℚ) < 36 := by simp
    simp [rget, safe_float, List.find?, h36]

/-- The eight stat keys `compute_metrics` reads. -/
def statKeys : List String :=
  ["MIN", "PTS", "REB", "AST", "FGM", "FGA", "FG3M", "FTA"]

/-- C10: two records agreeing on the eight stat keys get identical
metrics: no other field of a record influences any derived metric. -/
theorem c10_noninterference (r1 r2 : PRec)
    (h : ∀ k ∈ statKeys, rget r1 k = rget r2 k) :
    compute_metrics r1 = compute_metrics r2 := by
  have hMIN := h "MIN" (by simp [statKeys])
  have hPTS := h "PTS" (by simp [statKeys])
  have hREB := h "REB" (by simp [statKeys])
  have hAST := h "AST" (by simp [statKeys])
  have hFGM := h "FGM" (by simp [statKeys])
  have hFGA := h "FGA" (by simp [statKeys])
  have hFG3M := h "FG3M" (by simp [statKeys])
  have hFTA := h "FTA" (by simp [statKeys])
  unfold compute_metrics
  rw [hMIN, hPTS, hREB, hAST, hFGM, hFGA, hFG3M, hFTA]

end Nba

namespace Nba

/-- Witness for C2: at FGA 10, FGM 4, FG3M 2 the theorem yields the eFG%
formula value. -/
theorem c2_efg_witness :
    (compute_metrics recEfg).efg = some ((4 + 1/2 * 2) / 10) :=
  (c2_efg_characterization recEfg).2.1 10 4 2 rfl (by decide) rfl rfl

/-- Witness for C3: at PTS 20, FGA 15, FTA 0 the theorem yields the TS%
formula value. -/
theorem c3_ts_witness :
    (compute_metrics recTs).ts = some (20 / (2 * (15 + 11/25 * 0))) :=
  (c3_ts_characterization recTs).2.1 20 15 0 rfl rfl rfl (by simp)

/-- Witness for C4: at MIN 30, PTS 20 the theorem yields `20 * 36 / 30`
points per 36. -/
theorem c4_per36_witness :
    (compute_metrics recP36).pts36 = some (20 * 36 / 30) :=
  ((c4_per36_characterization recP36).2.2.2.1 30 rfl (by decide)).1 20 rfl

/-- Witness for C6: a record whose PTS field is a non-numeric string gets
absent TS% and absent points-per-36. -/
theorem c6_witness :
    (compute_metrics [("PTS", PyVal.vstrBad)]).ts = none ∧
    (compute_metrics [("PTS", PyVal.vstrBad)]).pts36 = none :=
  (c6_coercion_failure_degrades [("PTS", PyVal.vstrBad)]).2.2.1 rfl

/-- Witness for C7: the present eFG% of `recEfg` is a ratio with positive
denominator. -/
theorem c7_witness :
    ∃ n d, 0 < d ∧ ((4 + 1/2 * 2) / 10 : ℚ) = n / d :=
  (c7_metrics_real_or_absent recEfg).2.1 ((4 + 1/2 * 2) / 10) rfl

/-- Witness for C10: adding GP and PLAYER_NAME fields leaves the metrics
unchanged. -/
theorem c10_witness :
    compute_metrics [("MIN", PyVal.vnum 30)] =
      compute_metrics [("MIN", PyVal.vnum 30), ("GP", PyVal.vnum 50),
        ("PLAYER_NAME", PyVal.vstrBad)] :=
  c10_noninterference _ _ (by decide)

end Nba

namespace Nba

lemma isDigit_bounds (c : Char) (h : c.isDigit = true) :
    48 ≤ c.toNat ∧ c.toNat ≤ 57 := by
  simp [Char.isDigit, Char.le_def] at h
  exact h

lemma isDigit_ne_dash (c : Char) (h : c.isDigit = true) : c ≠ '-' := by
  intro hc
  subst hc
  simp at h

lemma pyStrLt_asymm :
    ∀ as bs, pyStrLt as bs = true → pyStrLt bs as = false := by
  intro as
  induction as with
  | nil =>
    intro bs h
    cases bs with
    | nil => simp [pyStrLt] at h
    | cons b bs => simp [pyStrLt]
  | cons a as ih =>
    intro bs h
    cases bs with
    | nil => simp [pyStrLt] at h
    | cons b bs =>
      rw [pyStrLt] at h ⊢
      by_cases h1 : a.toNat < b.toNat
      · have h2 : ¬ b.toNat < a.toNat := by omega
        simp [h1, h2]
      · by_cases h2 : b.toNat < a.toNat
        · simp [h1, h2] at h
        · simp [h1, h2] at h ⊢
          exact ih bs h

lemma digitsToNat_cons (c : Char) (cs : List Char) :
    digitsToNat (c :: cs) = digitVal c * 10 ^ cs.length + digitsToNat cs := by
  suffices h : ∀ (l : List Char) (acc : Nat),
      l.foldl (fun n ch => 10 * n + digitVal ch) acc =
        acc * 10 ^ l.length + digitsToNat l by
    rw [digitsToNat, List.foldl_cons, h cs, digitsToNat]
    ring_nf
  intro l
  induction l with
  | nil => intro acc; simp [digitsToNat]
  | cons d l ih =>
    intro acc
    rw [digitsToNat, List.foldl_cons, List.foldl_cons, ih, ih (10 * 0 + digitVal d)]
    simp [List.length_cons]
    ring

lemma digitsToNat_lt (cs : List Char) (h : ∀ c ∈ cs, c.isDigit = true) :
    digitsToNat cs < 10 ^ cs.length := by
  induction cs with
  | nil => simp [digitsToNat]
  | cons c cs ih =>
    have hc := isDigit_bounds c (h c (by simp))
    have hcs := ih (fun d hd => h d (by simp [hd]))
    rw [digitsToNat_cons]
    have : digitVal c ≤ 9 := by
      unfold digitVal
      omega
    calc digitVal c * 10 ^ cs.length + digitsToNat cs
        < digitVal c * 10 ^ cs.length + 10 ^ cs.length := by omega
      _ = (digitVal c + 1) * 10 ^ cs.length := by ring
      _ ≤ 10 * 10 ^ cs.length := by
          have : digitVal c + 1 ≤ 10 := by omega
          exact Nat.mul_le_mul_right _ this
      _ = 10 ^ (c :: cs).length := by
          rw [List.length_cons]
          ring

lemma digitsToNat_le_of_not_lt :
    ∀ as bs, as.length = bs.length →
      (∀ c ∈ as, c.isDigit = true) → (∀ c ∈ bs, c.isDigit = true) →
      pyStrLt as bs = false → digitsToNat bs ≤ digitsToNat as := by
  intro as
  induction as with
  | nil =>
    intro bs hlen _ _ _
    have : bs = [] := List.eq_nil_of_length_eq_zero hlen.symm
    subst this
    simp
  | cons a as ih =>
    intro bs hlen hda hdb h
    cases bs with
    | nil => simp at hlen
    | cons b bs =>
      have ha := isDigit_bounds a (hda a (by simp))
      have hb := isDigit_bounds b (hdb b (by simp))
      have hlen2 : as.length = bs.length := by
        simpa using hlen
      rw [pyStrLt] at h
      by_cases h1 : a.toNat < b.toNat
      · simp [h1] at h
      · by_cases h2 : b.toNat < a.toNat
        · simp [h1, h2] at h ⊢
          rw [digitsToNat_cons, digitsToNat_cons, hlen2]
          have hblt := digitsToNat_lt bs (fun d hd => hdb d (by simp [hd]))
          have hv : digitVal b < digitVal a := by
            unfold digitVal
            omega
          have hstep : digitVal b * 10 ^ bs.length + digitsToNat bs <
              (digitVal b + 1) * 10 ^ bs.length := by ring_nf; omega
          have hstep2 : (digitVal b + 1) * 10 ^ bs.length ≤
              digitVal a * 10 ^ bs.length :=
            Nat.mul_le_mul_right _ (by omega)
          omega
        · simp [h1, h2] at h
          have hrec := ih bs hlen2 (fun d hd => hda d (by simp [hd]))
            (fun d hd => hdb d (by simp [hd])) h
          rw [digitsToNat_cons, digitsToNat_cons, hlen2]
          have hv : digitVal b = digitVal a := by
            unfold digitVal
            omega
          rw [hv]
          omega

end Nba

namespace Nba

lemma labelWF_elim (s : String) (h : labelWF s = true) :
    ∃ d1 d2 d3 d4 rest, s.data = d1 :: d2 :: d3 :: d4 :: '-' :: rest ∧
      d1.isDigit = true ∧ d2.isDigit = true ∧ d3.isDigit = true ∧
      d4.isDigit = true := by
  unfold labelWF at h
  rcases hd : s.data with _ | ⟨d1, _ | ⟨d2, _ | ⟨d3, _ | ⟨d4, _ | ⟨h5, rest⟩⟩⟩⟩⟩ <;>
    rw [hd] at h <;> simp at h
  obtain ⟨⟨⟨⟨h1, h2⟩, h3⟩, h4⟩, h5eq⟩ := h
  subst h5eq
  exact ⟨d1, d2, d3, d4, rest, rfl, h1, h2, h3, h4⟩

/-- The start year of a label, as a natural number. -/
def yearN (s : String) : Nat := digitsToNat (dashHead s)

/-- The start year of a label, as an integer (what `startYear` returns on
well-formed labels). -/
def yearZ (s : String) : ℤ := (yearN s : ℤ)

lemma dashHead_wf (s : String) (d1 d2 d3 d4 : Char) (rest : List Char)
    (hd : s.data = d1 :: d2 :: d3 :: d4 :: '-' :: rest)
    (h1 : d1.isDigit = true) (h2 : d2.isDigit = true)
    (h3 : d3.isDigit = true) (h4 : d4.isDigit = true) :
    dashHead s = [d1, d2, d3, d4] := by
  unfold dashHead
  rw [hd]
  simp [List.takeWhile, isDigit_ne_dash d1 h1, isDigit_ne_dash d2 h2,
    isDigit_ne_dash d3 h3, isDigit_ne_dash d4 h4]

lemma startYear_wf (s : String) (h : labelWF s = true) :
    startYear s = some (yearZ s) := by
  obtain ⟨d1, d2, d3, d4, rest, hd, h1, h2, h3, h4⟩ := labelWF_elim s h
  have hdh := dashHead_wf s d1 d2 d3 d4 rest hd h1 h2 h3 h4
  unfold startYear pyIntOfChars yearZ yearN
  rw [hdh]
  simp [h1, h2, h3, h4]

lemma core_le (d1 d2 d3 d4 e1 e2 e3 e4 : Char) (r r2 : List Char)
    (hd1 : d1.isDigit = true) (hd2 : d2.isDigit = true)
    (hd3 : d3.isDigit = true) (hd4 : d4.isDigit = true)
    (he1 : e1.isDigit = true) (he2 : e2.isDigit = true)
    (he3 : e3.isDigit = true) (he4 : e4.isDigit = true)
    (h : pyStrLt (d1 :: d2 :: d3 :: d4 :: '-' :: r)
        (e1 :: e2 :: e3 :: e4 :: '-' :: r2) = false) :
    digitsToNat [e1, e2, e3, e4] ≤ digitsToNat [d1, d2, d3, d4] := by
  have b1 := isDigit_bounds d1 hd1
  have b2 := isDigit_bounds d2 hd2
  have b3 := isDigit_bounds d3 hd3
  have b4 := isDigit_bounds d4 hd4
  have c1 := isDigit_bounds e1 he1
  have c2 := isDigit_bounds e2 he2
  have c3 := isDigit_bounds e3 he3
  have c4 := isDigit_bounds e4 he4
  rw [show pyStrLt (d1 :: d2 :: d3 :: d4 :: '-' :: r)
        (e1 :: e2 :: e3 :: e4 :: '-' :: r2) =
      (if d1.toNat < e1.toNat then true
       else if e1.toNat < d1.toNat then false
       else if d2.toNat < e2.toNat then true
       else if e2.toNat < d2.toNat then false
       else if d3.toNat < e3.toNat then true
       else if e3.toNat < d3.toNat then false
       else if d4.toNat < e4.toNat then true
       else if e4.toNat < d4.toNat then false
       else pyStrLt r r2) from by
    simp only [pyStrLt]
    norm_num] at h
  simp only [digitsToNat, digitVal, List.foldl]
  split_ifs at h <;> first
    | exact Bool.noConfusion h
    | omega

lemma yearN_mono (s t : String) (hs : labelWF s = true) (ht : labelWF t = true)
    (h : sLt s t = false) : yearN t ≤ yearN s := by
  obtain ⟨d1, d2, d3, d4, rs, hds, hd1, hd2, hd3, hd4⟩ := labelWF_elim s hs
  obtain ⟨e1, e2, e3, e4, rt, hdt, he1, he2, he3, he4⟩ := labelWF_elim t ht
  unfold sLt at h
  rw [hds, hdt] at h
  unfold yearN
  rw [dashHead_wf s d1 d2 d3 d4 rs hds hd1 hd2 hd3 hd4,
    dashHead_wf t e1 e2 e3 e4 rt hdt he1 he2 he3 he4]
  exact core_le d1 d2 d3 d4 e1 e2 e3 e4 rs rt hd1 hd2 hd3 hd4 he1 he2 he3 he4 h

lemma yearN_mono_lt (s t : String) (hs : labelWF s = true)
    (ht : labelWF t = true) (h : sLt s t = true) : yearN s ≤ yearN t :=
  yearN_mono t s ht hs (pyStrLt_asymm _ _ h)

end Nba

namespace Nba

lemma foldl_min_mem (xs : List String) (x : String) :
    xs.foldl (fun m s => if sLt s m then s else m) x ∈ x :: xs := by
  induction xs generalizing x with
  | nil => simp
  | cons a xs ih =>
    rw [List.foldl_cons]
    rcases List.mem_cons.mp (ih (if sLt a x then a else x)) with h | h
    · rw [h]
      by_cases hc : sLt a x <;> simp [hc]
    · simp [List.mem_cons, h]

lemma foldl_max_mem (xs : List String) (x : String) :
    xs.foldl (fun m s => if sLt m s then s else m) x ∈ x :: xs := by
  induction xs generalizing x with
  | nil => simp
  | cons a xs ih =>
    rw [List.foldl_cons]
    rcases List.mem_cons.mp (ih (if sLt x a then a else x)) with h | h
    · rw [h]
      by_cases hc : sLt x a <;> simp [hc]
    · simp [List.mem_cons, h]

lemma yearN_foldl_min (xs : List String) (x : String)
    (hx : labelWF x = true) (hxs : ∀ s ∈ xs, labelWF s = true) :
    yearN (xs.foldl (fun m s => if sLt s m then s else m) x) =
      (xs.map yearN).foldl min (yearN x) := by
  induction xs generalizing x with
  | nil => simp
  | cons a xs ih =>
    have ha : labelWF a = true := hxs a (by simp)
    have hstep : labelWF (if sLt a x then a else x) = true := by
      by_cases hc : sLt a x <;> simp [hc, ha, hx]
    rw [List.foldl_cons, List.map_cons, List.foldl_cons,
      ih _ hstep (fun s hs => hxs s (by simp [hs]))]
    congr 1
    by_cases hc : sLt a x
    · rw [if_pos hc]
      have hle := yearN_mono_lt a x ha hx hc
      omega
    · rw [if_neg hc]
      have hle := yearN_mono a x ha hx (by simpa using hc)
      omega

lemma yearN_foldl_max (xs : List String) (x : String)
    (hx : labelWF x = true) (hxs : ∀ s ∈ xs, labelWF s = true) :
    yearN (xs.foldl (fun m s => if sLt m s then s else m) x) =
      (xs.map yearN).foldl max (yearN x) := by
  induction xs generalizing x with
  | nil => simp
  | cons a xs ih =>
    have ha : labelWF a = true := hxs a (by simp)
    have hstep : labelWF (if sLt x a then a else x) = true := by
      by_cases hc : sLt x a <;> simp [hc, ha, hx]
    rw [List.foldl_cons, List.map_cons, List.foldl_cons,
      ih _ hstep (fun s hs => hxs s (by simp [hs]))]
    congr 1
    by_cases hc : sLt x a
    · rw [if_pos hc]
      have hle := yearN_mono_lt x a hx ha hc
      omega
    · rw [if_neg hc]
      have hle := yearN_mono x a hx ha (by simpa using hc)
      omega

lemma mapM_startYear (l : List String) (h : ∀ s ∈ l, labelWF s = true) :
    l.mapM startYear = some (l.map yearZ) := by
  induction l with
  | nil => rfl
  | cons a l ih =>
    rw [List.mapM_cons, startYear_wf a (h a (by simp)),
      ih (fun s hs => h s (by simp [hs]))]
    rfl

lemma foldl_min_cast (l : List Nat) (a : Nat) :
    (l.map (fun n : Nat => (n : ℤ))).foldl min ((a : ℤ)) =
      ((l.foldl min a : Nat) : ℤ) := by
  induction l generalizing a with
  | nil => rfl
  | cons b l ih =>
    rw [List.map_cons, List.foldl_cons, List.foldl_cons, ← ih]
    congr 1
    omega

lemma foldl_max_cast (l : List Nat) (a : Nat) :
    (l.map (fun n : Nat => (n : ℤ))).foldl max ((a : ℤ)) =
      ((l.foldl max a : Nat) : ℤ) := by
  induction l generalizing a with
  | nil => rfl
  | cons b l ih =>
    rw [List.map_cons, List.foldl_cons, List.foldl_cons, ← ih]
    congr 1
    omega

lemma detectMissing_eq_spec (x : String) (xs : List String)
    (hwf : ∀ s ∈ x :: xs, labelWF s = true) :
    detectMissing (x :: xs) = specMissing (x :: xs) := by
  have hx := hwf x (List.mem_cons_self x xs)
  have hxs : ∀ s ∈ xs, labelWF s = true := fun s hs => hwf s (by simp [hs])
  have hmnWF : labelWF (xs.foldl (fun m s => if sLt s m then s else m) x)
      = true := hwf _ (foldl_min_mem xs x)
  have hmxWF : labelWF (xs.foldl (fun m s => if sLt m s then s else m) x)
      = true := hwf _ (foldl_max_mem xs x)
  have hobs : (x :: xs).mapM startYear = some ((x :: xs).map yearZ) :=
    mapM_startYear _ hwf
  have hyn : yearZ (xs.foldl (fun m s => if sLt s m then s else m) x) =
      (xs.map yearZ).foldl min (yearZ x) := by
    unfold yearZ
    rw [yearN_foldl_min xs x hx hxs]
    have : xs.map (fun s => ((yearN s : Nat) : ℤ)) =
        (xs.map yearN).map (fun n : Nat => (n : ℤ)) := by
      rw [List.map_map]
      rfl
    rw [this, foldl_min_cast]
  have hyx : yearZ (xs.foldl (fun m s => if sLt m s then s else m) x) =
      (xs.map yearZ).foldl max (yearZ x) := by
    unfold yearZ
    rw [yearN_foldl_max xs x hx hxs]
    have : xs.map (fun s => ((yearN s : Nat) : ℤ)) =
        (xs.map yearN).map (fun n : Nat => (n : ℤ)) := by
      rw [List.map_map]
      rfl
    rw [this, foldl_max_cast]
  rw [detectMissing, specMissing]
  rw [show strMinList (x :: xs) =
      some (xs.foldl (fun m s => if sLt s m then s else m) x) from rfl,
    show strMaxList (x :: xs) =
      some (xs.foldl (fun m s => if sLt m s then s else m) x) from rfl]
  simp only [Option.bind_eq_bind, Option.some_bind]
  rw [startYear_wf _ hmnWF, startYear_wf _ hmxWF]
  simp only [Option.some_bind]
  rw [hobs]
  simp only [Option.some_bind]
  rw [show (x :: xs).map yearZ = yearZ x :: xs.map yearZ from rfl]
  rw [show intMinList (yearZ x :: xs.map yearZ) =
      some ((xs.map yearZ).foldl min (yearZ x)) from rfl,
    show intMaxList (yearZ x :: xs.map yearZ) =
      some ((xs.map yearZ).foldl max (yearZ x)) from rfl]
  simp only [Option.some_bind]
  rw [hyn, hyx]

end Nba

namespace Nba

/-- C1: for non-empty well-formed observed label sets the analyzer
computes exactly the spec's scheme — `lo`/`hi` are the minimum and
maximum observed start years, the eligible range is `[lo+1, hi+1]`, the
observed start years shifted by one are subtracted, and each remaining
year `y` renders as `"{y-1}-{str(y)[-2:]}"`; in particular the observed
set `{"2000-01", "2003-04"}` gets missing labels
`["2001-02", "2002-03"]`. -/
theorem c1_analyzer_matches_spec :
    (∀ seasons : List String, seasons ≠ [] →
      (∀ s ∈ seasons, labelWF s = true) →
      detectMissing seasons = specMissing seasons) ∧
    detectMissing ["2000-01", "2003-04"] = some ["2001-02", "2002-03"] := by
  constructor
  · intro seasons hne hwf
    cases seasons with
    | nil => exact absurd rfl hne
    | cons x xs => exact detectMissing_eq_spec x xs hwf
  · decide

/-- Witness for C1: the two computations agree at the concrete observed
set of the claim. -/
theorem c1_witness :
    detectMissing ["2000-01", "2003-04"] =
      specMissing ["2000-01", "2003-04"] :=
  c1_analyzer_matches_spec.1 ["2000-01", "2003-04"] (by decide) (by decide)

lemma missing_shift_eq (startY endY : ℤ) (obs : List ℤ) :
    sortedStrs (((intRange (startY + 1) (endY + 1 + 1)).filter
        (fun y => !(decide (y ∈ obs.map (fun z => z + 1))))).map renderYear) =
    sortedStrs (((intRange startY (endY + 1)).filter
        (fun y => !(decide (y ∈ obs)))).map renderStartYear) := by
  have hr : intRange (startY + 1) (endY + 1 + 1) =
      (intRange startY (endY + 1)).map (fun y => y + 1) := by
    unfold intRange
    rw [show endY + 1 + 1 - (startY + 1) = endY + 1 - startY by ring]
    rw [List.map_map]
    apply List.map_congr_left
    intro i _
    simp
    ring
  rw [hr, List.filter_map, List.map_map]
  congr 1
  have hpred : ((fun y => !decide (y ∈ List.map (fun z => z + 1) obs)) ∘
      fun y : ℤ => y + 1) = (fun y : ℤ => !decide (y ∈ obs)) := by
    funext y
    simp
  rw [hpred]
  apply List.map_congr_left
  intro y _
  simp [renderYear, renderStartYear, Function.comp]

end Nba

namespace Nba

lemma detect_eq_unshifted (seasons : List String) :
    detectMissing seasons = detectMissingUnshifted seasons := by
  rw [detectMissing, detectMissingUnshifted]
  cases hmn : strMinList seasons with
  | none => rfl
  | some mn =>
    simp only [Option.bind_eq_bind, Option.some_bind]
    cases hmx : strMaxList seasons with
    | none => rfl
    | some mx =>
      simp only [Option.some_bind]
      cases hs1 : startYear mn with
      | none => rfl
      | some startY =>
        simp only [Option.some_bind]
        cases hs2 : startYear mx with
        | none => rfl
        | some endY =>
          simp only [Option.some_bind]
          cases hobs : seasons.mapM startYear with
          | none => rfl
          | some obs =>
            simp only [Option.some_bind]
            exact congrArg some (missing_shift_eq startY endY obs)

/-- C9 counterexample to the claimed non-equivalence: removing the
`+1`/`-1` shift coherently — eligible range `[lo, hi]` over observed
start years, subtracting the observed start years, rendering each
remaining start year as its own label — yields literally the same
function as the shifted analyzer. -/
theorem c9_counterexample : detectMissing = detectMissingUnshifted :=
  funext detect_eq_unshifted

/-- C9 (amended): the shifted analyzer and its coherently unshifted
variant agree on every input: the `+1` shift and the `-1` unshift cancel
and no boundary season changes. -/
theorem c9_shift_self_canceling (seasons : List String) :
    detectMissing seasons = detectMissingUnshifted seasons :=
  detect_eq_unshifted seasons

end Nba

namespace Nba

lemma mem_insertAsc (a x : String) (l : List String) :
    a ∈ insertAsc x l ↔ a = x ∨ a ∈ l := by
  induction l with
  | nil => simp [insertAsc]
  | cons y ys ih =>
    rw [insertAsc]
    by_cases hc : sLt y x
    · simp [hc, ih]
      tauto
    · simp [hc, ih]

lemma mem_sortedStrs (a : String) (l : List String) :
    a ∈ sortedStrs l ↔ a ∈ l := by
  induction l with
  | nil => simp [sortedStrs]
  | cons x xs ih =>
    rw [sortedStrs, List.foldr_cons]
    rw [show xs.foldr insertAsc [] = sortedStrs xs from rfl]
    rw [mem_insertAsc, ih]
    simp

lemma mem_intRange (y a b : ℤ) : y ∈ intRange a b ↔ a ≤ y ∧ y < b := by
  unfold intRange
  simp only [List.mem_map, List.mem_range]
  constructor
  · rintro ⟨i, hi, rfl⟩
    omega
  · intro h
    exact ⟨(y - a).toNat, by omega, by omega⟩

lemma digitChar_isDigit (d : Nat) (h : d < 10) : (digitChar d).isDigit = true := by
  interval_cases d <;> decide

lemma digitVal_digitChar (d : Nat) (h : d < 10) : digitVal (digitChar d) = d := by
  interval_cases d <;> decide

lemma digitsAux_digits (f : Nat) :
    ∀ n, ∀ c ∈ digitsAux f n, c.isDigit = true := by
  induction f with
  | zero =>
    intro n c hc
    cases n <;> simp [digitsAux] at hc
  | succ f ih =>
    intro n c hc
    cases n with
    | zero => simp [digitsAux] at hc
    | succ n =>
      rw [digitsAux] at hc
      rcases List.mem_append.mp hc with h | h
      · exact ih _ c h
      · simp at h
        subst h
        exact digitChar_isDigit _ (Nat.mod_lt _ (by omega))

lemma digitsToNat_append_digit (cs : List Char) (c : Char) :
    digitsToNat (cs ++ [c]) = 10 * digitsToNat cs + digitVal c := by
  unfold digitsToNat
  rw [List.foldl_append]
  simp

lemma digitsAux_toNat (f : Nat) :
    ∀ n, n ≤ f → digitsToNat (digitsAux f n) = n := by
  induction f with
  | zero =>
    intro n hn
    interval_cases n
    simp [digitsAux, digitsToNat]
  | succ f ih =>
    intro n hn
    cases n with
    | zero => simp [digitsAux, digitsToNat]
    | succ n =>
      rw [digitsAux, digitsToNat_append_digit,
        ih ((n + 1) / 10) (by omega),
        digitVal_digitChar _ (Nat.mod_lt _ (by omega))]
      omega

lemma pyStrOfNat_digits (n : Nat) : ∀ c ∈ pyStrOfNat n, c.isDigit = true := by
  unfold pyStrOfNat
  by_cases h : n = 0
  · simp [h]
  · rw [if_neg h]
    exact digitsAux_digits n n

lemma pyStrOfNat_toNat (n : Nat) : digitsToNat (pyStrOfNat n) = n := by
  unfold pyStrOfNat
  by_cases h : n = 0
  · simp [h]
    decide
  · rw [if_neg h]
    exact digitsAux_toNat n n le_rfl

lemma pyStrOfNat_ne_nil (n : Nat) : pyStrOfNat n ≠ [] := by
  unfold pyStrOfNat
  by_cases h : n = 0
  · simp [h]
  · rw [if_neg h]
    cases n with
    | zero => exact absurd rfl h
    | succ n =>
      rw [digitsAux]
      simp

lemma takeWhile_digits_dash (cs r : List Char)
    (h : ∀ c ∈ cs, c.isDigit = true) :
    (cs ++ '-' :: r).takeWhile (fun c => c ≠ '-') = cs := by
  induction cs with
  | nil => simp [List.takeWhile_cons]
  | cons c cs ih =>
    rw [List.cons_append, List.takeWhile_cons]
    have hc : c ≠ '-' := isDigit_ne_dash c (h c (by simp))
    have ih2 := ih (fun d hd => h d (by simp [hd]))
    simp only [decide_not] at ih2
    simp [hc, ih2]

lemma startYear_renderYear (y : ℤ) (h : 1 ≤ y) :
    startYear (renderYear y) = some (y - 1) := by
  unfold renderYear startYear dashHead
  rw [show (String.mk (pyStrOfInt (y - 1) ++ '-' :: lastTwo (pyStrOfInt y))).data
      = pyStrOfInt (y - 1) ++ '-' :: lastTwo (pyStrOfInt y) from rfl]
  have hnn : ¬ ((y - 1) < 0) := by omega
  rw [pyStrOfInt, if_neg hnn]
  rw [takeWhile_digits_dash _ _ (pyStrOfNat_digits _)]
  unfold pyIntOfChars
  rw [if_pos ⟨pyStrOfNat_ne_nil _,
    List.all_eq_true.mpr (fun c hc => pyStrOfNat_digits _ c hc)⟩]
  rw [pyStrOfNat_toNat]
  congr 1
  omega

end Nba

namespace Nba

lemma yearZ_nonneg (s : String) : 0 ≤ yearZ s := Int.natCast_nonneg _

lemma foldl_min_nonneg (l : List ℤ) (a : ℤ) (ha : 0 ≤ a)
    (hl : ∀ z ∈ l, 0 ≤ z) : 0 ≤ l.foldl min a := by
  induction l generalizing a with
  | nil => exact ha
  | cons b l ih =>
    rw [List.foldl_cons]
    exact ih _ (le_min ha (hl b (by simp))) (fun z hz => hl z (by simp [hz]))

/-- C5: for every player with well-formed observed labels, each reported
missing label is not an observed label and its start year lies between
the minimum and maximum observed start years; a player with exactly one
observed season has an empty missing list. -/
theorem c5_coverage_invariants :
    ∀ seasons out ys lo hi,
      (∀ s ∈ seasons, labelWF s = true) →
      detectMissing seasons = some out →
      seasons.mapM startYear = some ys →
      intMinList ys = some lo →
      intMaxList ys = some hi →
      (∀ lab ∈ out, lab ∉ seasons ∧
        ∃ y, startYear lab = some y ∧ lo ≤ y ∧ y ≤ hi) ∧
      (∀ s0, seasons = [s0] → out = []) := by
  intro seasons out ys lo hi hwf hdet hys hlo hhi
  cases seasons with
  | nil => simp [detectMissing, strMinList] at hdet
  | cons x xs =>
    have hys2 : ys = (x :: xs).map yearZ := by
      have h2 := mapM_startYear (x :: xs) hwf
      rw [hys] at h2
      exact Option.some.inj h2
    subst hys2
    rw [show (x :: xs).map yearZ = yearZ x :: xs.map yearZ from rfl] at hlo hhi
    have hlo2 : lo = (xs.map yearZ).foldl min (yearZ x) :=
      (Option.some.inj hlo).symm
    have hhi2 : hi = (xs.map yearZ).foldl max (yearZ x) :=
      (Option.some.inj hhi).symm
    subst hlo2
    subst hhi2
    rw [detectMissing_eq_spec x xs hwf, specMissing,
      mapM_startYear (x :: xs) hwf] at hdet
    simp only [Option.bind_eq_bind, Option.some_bind] at hdet
    rw [show (x :: xs).map yearZ = yearZ x :: xs.map yearZ from rfl] at hdet
    rw [show intMinList (yearZ x :: xs.map yearZ) =
        some ((xs.map yearZ).foldl min (yearZ x)) from rfl,
      show intMaxList (yearZ x :: xs.map yearZ) =
        some ((xs.map yearZ).foldl max (yearZ x)) from rfl] at hdet
    simp only [Option.some_bind] at hdet
    have hout := (Option.some.inj hdet).symm
    have hlo0 : 0 ≤ (xs.map yearZ).foldl min (yearZ x) := by
      apply foldl_min_nonneg _ _ (yearZ_nonneg x)
      intro z hz
      obtain ⟨s, _, rfl⟩ := List.mem_map.mp hz
      exact yearZ_nonneg s
    constructor
    · intro lab hmem
      rw [hout, mem_sortedStrs] at hmem
      obtain ⟨y2, hy2mem, rfl⟩ := List.mem_map.mp hmem
      have hy2range := (List.mem_filter.mp hy2mem).1
      have hy2pred := (List.mem_filter.mp hy2mem).2
      rw [show (yearZ x :: xs.map yearZ) = (x :: xs).map yearZ from rfl]
        at hy2pred
      rw [mem_intRange] at hy2range
      have h1 : 1 ≤ y2 := by omega
      have hparse := startYear_renderYear y2 h1
      simp only [Bool.not_eq_eq_eq_not, Bool.not_true, decide_eq_false_iff_not]
        at hy2pred
      constructor
      · intro hlabmem
        have hwlab := hwf _ hlabmem
        have hsw := startYear_wf _ hwlab
        rw [hparse] at hsw
        have hyz : yearZ (renderYear y2) = y2 - 1 := (Option.some.inj hsw).symm
        have hinner : yearZ (renderYear y2) ∈ (x :: xs).map yearZ :=
          List.mem_map.mpr ⟨renderYear y2, hlabmem, rfl⟩
        have houter : yearZ (renderYear y2) + 1 ∈
            ((x :: xs).map yearZ).map (fun z => z + 1) :=
          List.mem_map.mpr ⟨_, hinner, rfl⟩
        rw [hyz, show y2 - 1 + 1 = y2 from by ring] at houter
        exact hy2pred houter
      · exact ⟨y2 - 1, hparse, by omega, by omega⟩
    · intro s0 hseq
      obtain ⟨h1, h2⟩ := List.cons.inj hseq
      subst h1
      subst h2
      rw [hout]
      have hrange : intRange (yearZ x + 1) (yearZ x + 1 + 1) =
          [yearZ x + 1] := by
        unfold intRange
        rw [show yearZ x + 1 + 1 - (yearZ x + 1) = 1 from by ring]
        rfl
      simp [hrange, sortedStrs]

end Nba

namespace Nba

/-- Witness for C5 at the observed set of the spec's worked example. -/
theorem c5_witness :
    (∀ lab ∈ ["2001-02", "2002-03"], lab ∉ ["2000-01", "2003-04"] ∧
      ∃ y, startYear lab = some y ∧ (2000 : ℤ) ≤ y ∧ y ≤ 2003) ∧
    (∀ s0 : String, ["2000-01", "2003-04"] = [s0] →
      ["2001-02", "2002-03"] = ([] : List String)) :=
  c5_coverage_invariants ["2000-01", "2003-04"] ["2001-02", "2002-03"]
    [2000, 2003] 2000 2003 (by decide) (by decide) (by decide) (by decide)
    (by decide)

lemma mapM_none (l : List String) (s : String) (hs : s ∈ l)
    (h : startYear s = none) : l.mapM startYear = none := by
  induction l with
  | nil => simp at hs
  | cons a l ih =>
    rw [List.mapM_cons]
    rcases List.mem_cons.mp hs with rfl | hmem
    · rw [h]
      rfl
    · cases ha : startYear a with
      | none => rfl
      | some v =>
        rw [ih hmem]
        rfl

/-- C8 counterexample: a season label that does not start with a 4-digit
parseable year is not necessarily rejected — `"202-03"` has a 3-digit
prefix, yet the analyzer accepts the batch and reports no missing
seasons instead of raising an error. -/
theorem c8_counterexample :
    startsWith4Digits "202-03" = false ∧
    detectMissing ["202-03"] = some [] := by
  decide

/-- C8 (amended): failures are batch-level iff structural — the metrics
stage absorbs coercion failures and yields one result per record without
an error channel; a season label whose text before the first hyphen fails
integer parsing aborts the whole analyzer batch; an empty batch and a
first record missing a required key are rejected by the loader's
validation, the latter naming the missing keys. -/
theorem c8_batch_failure_policy :
    (∀ rows : List PRec, (rows.map compute_metrics).length = rows.length) ∧
    (∀ seasons s, s ∈ seasons → startYear s = none →
      detectMissing seasons = none) ∧
    (mainValidate [] = Except.error BatchError.emptyInput) ∧
    (∀ (r : PRec) rest k, k ∈ requiredKeys → hasKey r k = false →
      ∃ ks, mainValidate (r :: rest) =
        Except.error (BatchError.missingKeys ks) ∧ k ∈ ks) := by
  refine ⟨fun rows => List.length_map rows compute_metrics, ?_, rfl, ?_⟩
  · intro seasons s hs h
    cases seasons with
    | nil => simp at hs
    | cons x xs =>
      rw [detectMissing]
      rw [show strMinList (x :: xs) =
          some (xs.foldl (fun m s => if sLt s m then s else m) x) from rfl,
        show strMaxList (x :: xs) =
          some (xs.foldl (fun m s => if sLt m s then s else m) x) from rfl]
      simp only [Option.bind_eq_bind, Option.some_bind]
      cases h1 : startYear (xs.foldl (fun m s => if sLt s m then s else m) x)
        with
      | none => rfl
      | some a =>
        simp only [Option.some_bind]
        cases h2 : startYear (xs.foldl (fun m s => if sLt m s then s else m) x)
          with
        | none => rfl
        | some b =>
          simp only [Option.some_bind]
          rw [mapM_none (x :: xs) s hs h]
          rfl
  · intro r rest k hk hnk
    have hred : mainValidate (r :: rest) =
        (if sortedStrs (requiredKeys.filter (fun k2 => !(hasKey r k2))) = []
         then Except.ok ()
         else Except.error (BatchError.missingKeys
           (sortedStrs (requiredKeys.filter (fun k2 => !(hasKey r k2)))))) :=
      rfl
    have hkmem : k ∈ sortedStrs (requiredKeys.filter (fun k2 => !(hasKey r k2))) := by
      rw [mem_sortedStrs, List.mem_filter]
      exact ⟨hk, by simp [hnk]⟩
    have hne : ¬ (sortedStrs (requiredKeys.filter (fun k2 => !(hasKey r k2))) = []) := by
      intro he
      rw [he] at hkmem
      simp at hkmem
    rw [hred, if_neg hne]
    exact ⟨_, rfl, hkmem⟩

/-- Witness for C8: a batch with an unparseable season label aborts, and
a first record lacking the FGA key is rejected with FGA named among the
missing keys. -/
theorem c8_witness :
    detectMissing ["20x0-01"] = none ∧
    (∃ ks, mainValidate [[("PLAYER_ID", PyVal.vnum 1)]] =
      Except.error (BatchError.missingKeys ks) ∧ "FGA" ∈ ks) :=
  ⟨c8_batch_failure_policy.2.1 ["20x0-01"] "20x0-01" (by decide) (by decide),
   c8_batch_failure_policy.2.2.2 [("PLAYER_ID", PyVal.vnum 1)] [] "FGA"
     (by decide) (by decide)⟩

end Nba
